import Mathlib

/-!
Verification development for the warehouse activity tracker.

The repository has two programs:
* `tracker.py` — an in-memory first/last activity state machine for the
  current calendar day, flushed periodically (and on rollover) to a
  day-keyed CSV table (`activity_log.csv`).
* `shipstation_tracker.py` — a scheduled job that upserts order counts
  into a second day-keyed table (`orders_log.csv`) and rebuilds a
  combined outer-join view (`combined_log.csv`).

The definitions below are a shallow embedding of those two files:
tables are lists of string-field records (what `csv.DictReader` yields),
file systems are explicit records with `Option`-valued file contents
(`none` = the file does not exist), and the Python functions are
translated clause by clause into Lean functions.
-/

/-! ## String primitives

Python compares and sorts `str` values by Unicode code point. `String`'s
builtin order does not reduce in the kernel, so we use an explicit
code-point lexicographic comparison over `String.data`.
-/

/-- Lexicographic strict order on character lists by code point,
as Python's `str <` behaves. -/
def charListLt : List Char → List Char → Bool
  | [], [] => false
  | [], _ :: _ => true
  | _ :: _, [] => false
  | c :: cs, d :: ds =>
      c.toNat < d.toNat || (c.toNat = d.toNat && charListLt cs ds)

/-- Strict order on strings, code-point lexicographic (Python `str <`). -/
def strLt (a b : String) : Bool := charListLt a.data b.data

/-- Non-strict order on strings used as the sort relation for
Python's `sorted` over date strings. -/
def dateLe (a b : String) : Prop := strLt b a = false

instance : DecidableRel dateLe := fun _ _ => inferInstanceAs (Decidable (_ = false))

/-- Concatenation of a list of written chunks, as the bytes that end up
in a file written chunk by chunk. -/
def concatChunks (chunks : List String) : String :=
  chunks.foldl (fun acc s => acc ++ s) ""

/-- True when a CSV field value must be quoted by `csv.DictWriter`
(default QUOTE_MINIMAL: delimiter, quote char, or newline present). -/
def needsQuote (s : String) : Bool :=
  s.data.any (fun c => c == ',' || c == '"' || c == '\n' || c == '\r')

/-- Double every quote character, as CSV quoting does inside a quoted field. -/
def escapeQuotes : List Char → List Char
  | [] => []
  | c :: cs => if c == '"' then '"' :: '"' :: escapeQuotes cs else c :: escapeQuotes cs

/-- Serialize one CSV field value (`csv.DictWriter` with default quoting). -/
def quoteField (s : String) : String :=
  if needsQuote s then String.mk ('"' :: (escapeQuotes s.data ++ ['"'])) else s

/-! ## tracker.py — data model -/

/-- A wall-clock instant, as Python's `datetime.now()` result: the
calendar date rendered by `strftime("%Y-%m-%d")` together with the
second-of-day (which `strftime("%H:%M:%S")` renders). -/
structure DateTime where
  date : String
  sec : Nat
deriving DecidableEq

/-- Chronological order on instants: earlier date, or same date and
no-later second of day. -/
def DateTime.le (a b : DateTime) : Prop :=
  strLt a.date b.date = true ∨ (a.date = b.date ∧ a.sec ≤ b.sec)

instance : DecidableRel DateTime.le := fun _ _ => inferInstanceAs (Decidable (_ ∨ _))

/-- One row of `activity_log.csv` as `csv.DictReader` yields it:
columns `Date`, `First Activity`, `Last Activity`, all strings. -/
structure ActRow where
  date : String
  first : String
  last : String
deriving DecidableEq

/-- The module-level mutable state of tracker.py: `_current_date`,
`_first_activity`, `_last_activity` (lines 39-41). -/
structure TrackerState where
  currentDate : String
  firstActivity : Option DateTime
  lastActivity : Option DateTime
deriving DecidableEq

/-- The file-system state tracker.py touches: whether the log directory
exists, and the content of `activity_log.csv` (`none` = missing file). -/
structure TrackerFS where
  dirExists : Bool
  activity : Option (List ActRow)
deriving DecidableEq

/-- The state `main()` sets up (line 235): today's date with both
timestamps unset. -/
def initialState (d0 : String) : TrackerState :=
  { currentDate := d0, firstActivity := none, lastActivity := none }

/-- Two-digit zero-padded rendering of a number below 100. -/
def pad2 (n : Nat) : String :=
  if n < 10 then "0" ++ toString n else toString n

/-- Rendering of a second-of-day as `strftime("%H:%M:%S")` does. -/
def timeStr (sec : Nat) : String :=
  pad2 (sec / 3600) ++ ":" ++ pad2 (sec % 3600 / 60) ++ ":" ++ pad2 (sec % 60)

/-- tracker.py `_fmt` (line 56): render a timestamp as `HH:MM:SS`, or the
empty string when it is `None`. -/
def fmt : Option DateTime → String
  | none => ""
  | some t => timeStr t.sec

/-! ## tracker.py — operations -/

/-- tracker.py `_ensure_log_file` (lines 47-53): create the directory,
and create the file with just a header (an empty table) if missing. -/
def ensureLogFile (fs : TrackerFS) : TrackerFS :=
  { dirExists := true, activity := some (fs.activity.getD []) }

/-- The update-or-append loop of `_flush_today` (lines 83-96): overwrite
the First/Last fields of the first row whose `Date` matches, or append a
new row at the end when none matches. -/
def updateTodayRow (rows : List ActRow) (d fstv lstv : String) : List ActRow :=
  match rows with
  | [] => [{ date := d, first := fstv, last := lstv }]
  | r :: rest =>
      if r.date = d then { date := d, first := fstv, last := lstv } :: rest
      else r :: updateTodayRow rest d fstv lstv

/-- tracker.py `_flush_today` (lines 60-104): snapshot the state, return
immediately when the current date is unset, otherwise ensure the log
file, read all rows, update or append today's row, and atomically
rewrite the file. -/
def flushToday (s : TrackerState) (fs : TrackerFS) : TrackerFS :=
  if s.currentDate = "" then fs
  else
    let fs1 := ensureLogFile fs
    let rows := fs1.activity.getD []
    let rows' := updateTodayRow rows s.currentDate (fmt s.firstActivity) (fmt s.lastActivity)
    { fs1 with activity := some rows' }

/-- tracker.py `_record_activity` (lines 110-129): on a date mismatch the
state is reset to the event's date with `first = last = now` (the
commented-out flush of the old day is a `pass`); on a matching date,
`first` is set if unset and `last` is always set. -/
def recordActivity (now : DateTime) (s : TrackerState) : TrackerState :=
  if s.currentDate ≠ now.date then
    { currentDate := now.date, firstActivity := some now, lastActivity := some now }
  else
    { s with
      firstActivity := match s.firstActivity with
        | none => some now
        | some f => some f
      lastActivity := some now }

/-- The whole input-event path: `_record_activity` mutates only the
in-memory state and performs no file I/O at all. -/
def onInputEvent (now : DateTime) (p : TrackerState × TrackerFS) :
    TrackerState × TrackerFS :=
  (recordActivity now p.1, p.2)

/-- The body of `_date_rollover_thread` on a detected date change
(lines 148-156): flush the state as it stands, then reset it to the new
date with both timestamps unset. -/
def dateRolloverStep (today : String) (s : TrackerState) (fs : TrackerFS) :
    TrackerState × TrackerFS :=
  ({ currentDate := today, firstActivity := none, lastActivity := none },
   flushToday s fs)

/-- Folding a list of input events through `_record_activity`. -/
def processEvents (events : List DateTime) (s : TrackerState) : TrackerState :=
  events.foldl (fun st e => recordActivity e st) s

/-! ## shipstation_tracker.py — data model -/

/-- One row of `orders_log.csv`: columns `Date`, `Outstanding Orders`,
`Shipped Today`, all strings. -/
structure OrdRow where
  date : String
  outstanding : String
  shipped : String
deriving DecidableEq

/-- The two non-key columns of `orders_log.csv`, the possible `field`
arguments of `_upsert_orders_row`. -/
inductive OrdField where
  | outstanding
  | shipped
deriving DecidableEq

/-- Read the named column of an orders row. -/
def OrdRow.get (r : OrdRow) : OrdField → String
  | .outstanding => r.outstanding
  | .shipped => r.shipped

/-- Overwrite the named column of an orders row (`today_row[field] = ...`). -/
def OrdRow.set (r : OrdRow) (f : OrdField) (v : String) : OrdRow :=
  match f with
  | .outstanding => { r with outstanding := v }
  | .shipped => { r with shipped := v }

/-- One row of `combined_log.csv`: columns `Date`, `First Click`,
`Last Click`, `Outstanding Orders`, `Shipped Today`. -/
structure CombRow where
  date : String
  firstClick : String
  lastClick : String
  outstanding : String
  shipped : String
deriving DecidableEq

/-- The file-system state shipstation_tracker.py touches: the log
directory flag and the three CSV files (`none` = missing file). -/
structure ShipFS where
  dirExists : Bool
  orders : Option (List OrdRow)
  activity : Option (List ActRow)
  combined : Option (List CombRow)
deriving DecidableEq

/-! ## shipstation_tracker.py — operations -/

/-- shipstation_tracker.py `_read_csv` (lines 102-108): a missing file
reads as the empty list of records. -/
def readCsv {α : Type} (file : Option (List α)) : List α := file.getD []

/-- shipstation_tracker.py `_ensure_orders_log` (lines 95-99): create the
directory, and create the file as an empty table if missing. -/
def ensureOrdersLog (fs : ShipFS) : ShipFS :=
  { fs with dirExists := true, orders := some (fs.orders.getD []) }

/-- The find-update-or-append loop of `_upsert_orders_row`
(lines 126-136): set the named field on the first row whose `Date`
matches, or append a fresh row with both other fields empty. -/
def upsertRows (rows : List OrdRow) (today : String) (f : OrdField) (v : Nat) :
    List OrdRow :=
  match rows with
  | [] => [OrdRow.set { date := today, outstanding := "", shipped := "" } f (toString v)]
  | r :: rest =>
      if r.date = today then r.set f (toString v) :: rest
      else r :: upsertRows rest today f v

/-- shipstation_tracker.py `_upsert_orders_row` (lines 121-137): ensure
the orders log, read it, update or append today's row, write it back. -/
def upsertOrdersRow (today : String) (f : OrdField) (v : Nat) (fs : ShipFS) : ShipFS :=
  let fs1 := ensureOrdersLog fs
  let rows := readCsv fs1.orders
  { fs1 with orders := some (upsertRows rows today f v) }

/-- Insertion into a Python dict rendered as an association list: an
existing key is overwritten in place, a new key is appended at the end. -/
def insertIdx {α : Type} (m : List (String × α)) (k : String) (v : α) :
    List (String × α) :=
  match m with
  | [] => [(k, v)]
  | (k', v') :: rest =>
      if k' = k then (k, v) :: rest else (k', v') :: insertIdx rest k v

/-- The dict comprehension `{r["Date"]: r for r in rows}` (lines 154-155):
index rows by date, later rows overwriting earlier ones. -/
def indexBy {α : Type} (dateOf : α → String) (rows : List α) :
    List (String × α) :=
  rows.foldl (fun m r => insertIdx m (dateOf r) r) []

/-- Python dict lookup on the association list. -/
def lookupIdx {α : Type} (m : List (String × α)) (d : String) : Option α :=
  match m with
  | [] => none
  | (k, v) :: rest => if k = d then some v else lookupIdx rest d

/-- The last row in file order bearing the given date, the
specification-side description of what dict indexing keeps. -/
def lastWithDate {α : Type} (dateOf : α → String) (rows : List α) (d : String) :
    Option α :=
  match rows with
  | [] => none
  | r :: rest =>
      match lastWithDate dateOf rest d with
      | some x => some x
      | none => if dateOf r = d then some r else none

/-- shipstation_tracker.py `rebuild_combined_log` core (lines 150-169):
index both tables by date, take the sorted union of the date sets, and
emit one combined row per date with absent-side fields rendered as
empty strings. -/
def rebuildCombined (acts : List ActRow) (ords : List OrdRow) : List CombRow :=
  let actIdx := indexBy ActRow.date acts
  let ordIdx := indexBy OrdRow.date ords
  let allDates :=
    List.insertionSort dateLe ((actIdx.map Prod.fst) ++ (ordIdx.map Prod.fst)).dedup
  allDates.map (fun d =>
    { date := d
      firstClick := match lookupIdx actIdx d with | some a => a.first | none => ""
      lastClick := match lookupIdx actIdx d with | some a => a.last | none => ""
      outstanding := match lookupIdx ordIdx d with | some o => o.outstanding | none => ""
      shipped := match lookupIdx ordIdx d with | some o => o.shipped | none => "" })

/-- shipstation_tracker.py `rebuild_combined_log` (lines 143-172) as a
file-system step: read both source tables (missing = empty) and write
the combined table. -/
def rebuildCombinedLog (fs : ShipFS) : ShipFS :=
  { fs with combined := some (rebuildCombined (readCsv fs.activity) (readCsv fs.orders)) }

/-- shipstation_tracker.py `run_morning` (lines 178-184): the fetch of
the awaiting-shipment count happens first; a raised exception propagates
before any write, leaving the file system untouched. On success the
count is upserted into `Outstanding Orders` and the combined view is
rebuilt. -/
def runMorning (fetchResult : Except String Nat) (today : String) (fs : ShipFS) :
    ShipFS × Except String Unit :=
  match fetchResult with
  | .error e => (fs, .error e)
  | .ok count =>
      (rebuildCombinedLog (upsertOrdersRow today OrdField.outstanding count fs), .ok ())

/-- shipstation_tracker.py `run_afternoon` (lines 187-193): same shape as
`run_morning`, writing the `Shipped Today` column. -/
def runAfternoon (fetchResult : Except String Nat) (today : String) (fs : ShipFS) :
    ShipFS × Except String Unit :=
  match fetchResult with
  | .error e => (fs, .error e)
  | .ok count =>
      (rebuildCombinedLog (upsertOrdersRow today OrdField.shipped count fs), .ok ())

/-! ## Serialization (`csv.DictWriter`, default dialect: CRLF line ends) -/

/-- Serialized activity row. -/
def serializeActRow (r : ActRow) : String :=
  quoteField r.date ++ "," ++ quoteField r.first ++ "," ++ quoteField r.last ++ "\r\n"

/-- Serialized orders row. -/
def serializeOrdRow (r : OrdRow) : String :=
  quoteField r.date ++ "," ++ quoteField r.outstanding ++ ","
    ++ quoteField r.shipped ++ "\r\n"

/-- Serialized combined row. -/
def serializeCombRow (r : CombRow) : String :=
  quoteField r.date ++ "," ++ quoteField r.firstClick ++ ","
    ++ quoteField r.lastClick ++ "," ++ quoteField r.outstanding ++ ","
    ++ quoteField r.shipped ++ "\r\n"

/-- The full bytes of `combined_log.csv`: header line then rows. -/
def serializeCombTable (rows : List CombRow) : String :=
  concatChunks ("Date,First Click,Last Click,Outstanding Orders,Shipped Today\r\n"
    :: rows.map serializeCombRow)

/-! ## Atomic write (temp-then-rename) as an operation trace

Both `_write_csv` (shipstation_tracker.py lines 111-118) and the tail of
`_flush_today` (tracker.py lines 98-104) write a file the same way:
open a sibling `.tmp` file, write the header, write the rows, then
rename the temp file onto the final path. We model the final path and
the temp path of one table as a two-field disk state and that write as
a list of operations, so that interrupting the write at any point is
running a proper prefix of the operation list.
-/

/-- The committed file and its sibling temp file (`none` = absent). -/
structure DiskFile where
  committed : Option String
  temp : Option String
deriving DecidableEq

/-- One step of the write path. -/
inductive WriteOp where
  | createTemp
  | writeChunk (s : String)
  | rename
deriving DecidableEq

/-- Effect of one write step: creating the temp truncates it, a chunk
appends to the temp, and the rename moves the temp onto the final path. -/
def applyOp (fs : DiskFile) : WriteOp → DiskFile
  | .createTemp => { fs with temp := some "" }
  | .writeChunk s => { fs with temp := fs.temp.map (fun t => t ++ s) }
  | .rename => { committed := fs.temp, temp := none }

/-- Run a list of write steps. -/
def runOps (fs : DiskFile) (ops : List WriteOp) : DiskFile :=
  ops.foldl applyOp fs

/-- The operation trace of one `_write_csv` call: create the temp, write
each chunk (header line, then one line per row), rename last. -/
def writeScript (chunks : List String) : List WriteOp :=
  WriteOp.createTemp :: (chunks.map WriteOp.writeChunk ++ [WriteOp.rename])

/-! ## Specification-side predicates -/

/-- Invariant carried while processing input events: either both
timestamps are unset, or both are set with `first ≤ last` and `last`
no later than every event still to be processed. -/
def InvState (s : TrackerState) (rest : List DateTime) : Prop :=
  match s.firstActivity, s.lastActivity with
  | none, none => True
  | some f, some l => DateTime.le f l ∧ ∀ e ∈ rest, DateTime.le l e
  | _, _ => False

/-! ## Basic lemmas about row field access -/

theorem OrdRow.set_date (r : OrdRow) (f : OrdField) (v : String) :
    (r.set f v).date = r.date := by
  cases f <;> rfl

theorem OrdRow.get_set_same (r : OrdRow) (f : OrdField) (v : String) :
    (r.set f v).get f = v := by
  cases f <;> rfl

theorem OrdRow.get_set_other (r : OrdRow) (f g : OrdField) (v : String)
    (h : f ≠ g) : (r.set f v).get g = r.get g := by
  cases f <;> cases g <;> first | rfl | exact absurd rfl h

/-- Claim C1. The spec requires that on every rollover from day D1 to day
D2 the final first/last pair of D1 is written to the activity table,
keyed under D1, before the in-memory state is reset — including the path
where an input event bearing a D2 timestamp arrives while the state
still holds D1. The event-handler path of `_record_activity` violates
this: at the concrete failing input below (state holding 2024-06-01 with
first 09:15:02 and last 17:40:11, event arriving at 2024-06-02 00:00:30,
activity table empty), the handler resets the state to 2024-06-02 and
leaves the file system untouched, so 2024-06-01's pair is lost without
ever being written. -/
theorem claim_C1 :
    onInputEvent { date := "2024-06-02", sec := 30 }
        ({ currentDate := "2024-06-01",
           firstActivity := some { date := "2024-06-01", sec := 33302 },
           lastActivity := some { date := "2024-06-01", sec := 63611 } },
         { dirExists := true, activity := some [] })
      = ({ currentDate := "2024-06-02",
           firstActivity := some { date := "2024-06-02", sec := 30 },
           lastActivity := some { date := "2024-06-02", sec := 30 } },
         { dirExists := true, activity := some [] }) := by
  decide

/-- Claim C4. The combined-view rebuild is a pure function of the two
source tables: two rebuilds from equal activity and metrics tables
produce byte-identical serialized output. -/
theorem claim_C4 (acts1 acts2 : List ActRow) (ords1 ords2 : List OrdRow)
    (ha : acts1 = acts2) (ho : ords1 = ords2) :
    serializeCombTable (rebuildCombined acts1 ords1) =
      serializeCombTable (rebuildCombined acts2 ords2) := by
  subst ha
  subst ho
  rfl

/-- Witness for claim C4 at concrete tables. -/
theorem claim_C4_witness :
    serializeCombTable (rebuildCombined
        [{ date := "2024-06-03", first := "09:02:11", last := "09:02:45" }]
        [{ date := "2024-06-03", outstanding := "7", shipped := "" }]) =
      serializeCombTable (rebuildCombined
        [{ date := "2024-06-03", first := "09:02:11", last := "09:02:45" }]
        [{ date := "2024-06-03", outstanding := "7", shipped := "" }]) :=
  claim_C4 _ _ _ _ rfl rfl

/-- Claim C8. When the external metrics fetch fails, `run_morning` and
`run_afternoon` raise before any write: the whole file system — in
particular the metrics table — is unchanged. The upsert and combined
rebuild execute only after a successful fetch. -/
theorem claim_C8 :
    ∀ (e : String) (today : String) (fs : ShipFS) (n : Nat),
      (runMorning (Except.error e) today fs).1 = fs
      ∧ (runAfternoon (Except.error e) today fs).1 = fs
      ∧ (runMorning (Except.error e) today fs).1.orders = fs.orders
      ∧ (runAfternoon (Except.error e) today fs).1.orders = fs.orders
      ∧ (runMorning (Except.error e) today fs).2 = Except.error e
      ∧ (runAfternoon (Except.error e) today fs).2 = Except.error e
      ∧ (runMorning (Except.ok n) today fs).1 =
          rebuildCombinedLog (upsertOrdersRow today OrdField.outstanding n fs)
      ∧ (runAfternoon (Except.ok n) today fs).1 =
          rebuildCombinedLog (upsertOrdersRow today OrdField.shipped n fs) := by
  intro e today fs n
  exact ⟨rfl, rfl, rfl, rfl, rfl, rfl, rfl, rfl⟩

/-- Claim C10. `_flush_today` with an unset current date returns before
touching anything: the file system (directory flag and activity table)
is exactly as it was, and the in-memory state is never written by a
flush at all. -/
theorem claim_C10 (s : TrackerState) (fs : TrackerFS)
    (h : s.currentDate = "") : flushToday s fs = fs := by
  simp [flushToday, h]

/-- Witness for claim C10 at the process-start state. -/
theorem claim_C10_witness :
    flushToday (initialState "") { dirExists := false, activity := none } =
      { dirExists := false, activity := none } :=
  claim_C10 _ _ rfl

/-! ## Upsert engine lemmas (shipstation_tracker.py `_upsert_orders_row`) -/

theorem upsertRows_filter_ne (rows : List OrdRow) (D : String) (f : OrdField) (v : Nat) :
    (upsertRows rows D f v).filter (fun r => decide (r.date ≠ D)) =
      rows.filter (fun r => decide (r.date ≠ D)) := by
  induction rows with
  | nil => simp [upsertRows, OrdRow.set_date]
  | cons r rest ih =>
      by_cases h : r.date = D
      · simp [upsertRows, h, OrdRow.set_date]
      · simpa [upsertRows, h] using ih

theorem upsertRows_countP (rows : List OrdRow) (D : String) (f : OrdField) (v : Nat) :
    (upsertRows rows D f v).countP (fun r => decide (r.date = D)) =
      if rows.countP (fun r => decide (r.date = D)) = 0 then 1
      else rows.countP (fun r => decide (r.date = D)) := by
  induction rows with
  | nil => simp [upsertRows, OrdRow.set_date]
  | cons r rest ih =>
      by_cases h : r.date = D
      · simp [upsertRows, h, List.countP_cons, OrdRow.set_date]
      · simpa [upsertRows, h, List.countP_cons] using ih

theorem upsertRows_find (rows : List OrdRow) (D : String) (f : OrdField) (v : Nat) :
    (upsertRows rows D f v).find? (fun r => decide (r.date = D)) =
      some (OrdRow.set ((rows.find? (fun r => decide (r.date = D))).getD
        { date := D, outstanding := "", shipped := "" }) f (toString v)) := by
  induction rows with
  | nil => simp [upsertRows, OrdRow.set_date, List.find?]
  | cons r rest ih =>
      by_cases h : r.date = D
      · simp [upsertRows, h, OrdRow.set_date, List.find?]
      · simp [upsertRows, h, List.find?, ih]

theorem find?_eq_of_countP_le_one {α : Type} (p : α → Bool) (l : List α)
    (h : l.countP p ≤ 1) (r : α) (hr : r ∈ l) (hpr : p r = true) :
    l.find? p = some r := by
  induction l with
  | nil => cases hr
  | cons x xs ih =>
      by_cases hx : p x = true
      · have hxs : xs.countP p = 0 := by
          rw [List.countP_cons, if_pos hx] at h
          omega
        rcases List.mem_cons.mp hr with rfl | hmem
        · simp [List.find?_cons_of_pos, hx]
        · exact absurd hpr (by simpa using List.countP_eq_zero.mp hxs r hmem)
      · rcases List.mem_cons.mp hr with rfl | hmem
        · exact absurd hpr hx
        · rw [List.find?_cons_of_neg _ (by simpa using hx)]
          apply ih _ hmem
          rw [List.countP_cons, if_neg hx] at h
          omega

/-- Claim C2 (amended). For a table obeying the documented table
invariant — at most one record for the date D being upserted — upserting
field A for D, then field B for D, then reading the table back yields
exactly one record with date D carrying both upserted values, and every
record for another date is unchanged, hence byte-identical when
serialized. (Unamended, the claim quantifies over tables that already
hold duplicate records for D, where the upsert updates only the first
duplicate; see the counterexample.) -/
theorem claim_C2 (rows : List OrdRow) (D : String) (A B : OrdField) (va vb : Nat)
    (hAB : A ≠ B)
    (hdup : rows.countP (fun r => decide (r.date = D)) ≤ 1) :
    ((upsertRows (upsertRows rows D A va) D B vb).countP
        (fun r => decide (r.date = D)) = 1)
    ∧ (readCsv (some (upsertRows (upsertRows rows D A va) D B vb)) =
        upsertRows (upsertRows rows D A va) D B vb)
    ∧ (∀ r ∈ upsertRows (upsertRows rows D A va) D B vb, r.date = D →
        r.get A = toString va ∧ r.get B = toString vb)
    ∧ ((upsertRows (upsertRows rows D A va) D B vb).filter
          (fun r => decide (r.date ≠ D)) =
        rows.filter (fun r => decide (r.date ≠ D)))
    ∧ (((upsertRows (upsertRows rows D A va) D B vb).filter
          (fun r => decide (r.date ≠ D))).map serializeOrdRow =
        (rows.filter (fun r => decide (r.date ≠ D))).map serializeOrdRow) := by
  have hc1 : (upsertRows rows D A va).countP (fun r => decide (r.date = D)) = 1 := by
    rw [upsertRows_countP]
    split_ifs with h0
    · rfl
    · omega
  have hc2 : (upsertRows (upsertRows rows D A va) D B vb).countP
      (fun r => decide (r.date = D)) = 1 := by
    rw [upsertRows_countP, hc1]
    simp
  refine ⟨hc2, rfl, ?_, ?_, ?_⟩
  · intro r hr hrd
    have hfind : (upsertRows (upsertRows rows D A va) D B vb).find?
        (fun r => decide (r.date = D)) = some r :=
      find?_eq_of_countP_le_one _ _ (le_of_eq hc2) r hr (by simpa using hrd)
    rw [upsertRows_find, upsertRows_find] at hfind
    have hr2 : r = OrdRow.set (OrdRow.set (((rows.find?
        (fun r => decide (r.date = D))).getD
          { date := D, outstanding := "", shipped := "" })) A (toString va)) B (toString vb) := by
      simpa using hfind.symm
    subst hr2
    constructor
    · rw [OrdRow.get_set_other _ _ _ _ (Ne.symm hAB), OrdRow.get_set_same]
    · rw [OrdRow.get_set_same]
  · rw [upsertRows_filter_ne, upsertRows_filter_ne]
  · rw [upsertRows_filter_ne, upsertRows_filter_ne]

/-- Counterexample to claim C2 as stated: quantified over *every* table
state, it fails on a table that already holds two records for date
2024-06-03 — after upserting both fields, the table still holds two
records for that date, not exactly one. -/
theorem claim_C2_counterexample :
    ¬ ((upsertRows (upsertRows
          [{ date := "2024-06-03", outstanding := "", shipped := "" },
           { date := "2024-06-03", outstanding := "", shipped := "" }]
          "2024-06-03" OrdField.outstanding 7) "2024-06-03" OrdField.shipped 9).countP
        (fun r => decide (r.date = "2024-06-03")) = 1) := by
  decide

/-- Witness for the amended claim C2 at a concrete table. -/
theorem claim_C2_witness :
    (upsertRows (upsertRows
        [{ date := "2024-06-02", outstanding := "3", shipped := "4" }]
        "2024-06-03" OrdField.outstanding 7) "2024-06-03" OrdField.shipped 9).countP
      (fun r => decide (r.date = "2024-06-03")) = 1 :=
  (claim_C2 [{ date := "2024-06-02", outstanding := "3", shipped := "4" }]
    "2024-06-03" OrdField.outstanding OrdField.shipped 7 9
    (by decide) (by decide)).1

/-! ## Order lemmas for timestamps -/

theorem charListLt_trans : ∀ a b c : List Char,
    charListLt a b = true → charListLt b c = true → charListLt a c = true := by
  intro a
  induction a with
  | nil =>
      intro b c hab hbc
      cases b with
      | nil => exact hbc
      | cons y ys =>
          cases c with
          | nil => simp [charListLt] at hbc
          | cons z zs => simp [charListLt]
  | cons x xs ih =>
      intro b c hab hbc
      cases b with
      | nil => simp [charListLt] at hab
      | cons y ys =>
          cases c with
          | nil => simp [charListLt] at hbc
          | cons z zs =>
              simp only [charListLt, Bool.or_eq_true, Bool.and_eq_true,
                decide_eq_true_eq] at hab hbc ⊢
              rcases hab with h1 | ⟨h1, h1r⟩ <;> rcases hbc with h2 | ⟨h2, h2r⟩
              · exact Or.inl (Nat.lt_trans h1 h2)
              · exact Or.inl (h2 ▸ h1)
              · exact Or.inl (h1 ▸ h2)
              · exact Or.inr ⟨h1.trans h2, ih ys zs h1r h2r⟩

theorem DateTime.le_refl (a : DateTime) : DateTime.le a a :=
  Or.inr ⟨rfl, Nat.le_refl _⟩

theorem DateTime.le_trans {a b c : DateTime} (hab : DateTime.le a b)
    (hbc : DateTime.le b c) : DateTime.le a c := by
  rcases hab with h1 | ⟨h1, h1s⟩ <;> rcases hbc with h2 | ⟨h2, h2s⟩
  · exact Or.inl (charListLt_trans _ _ _ h1 h2)
  · exact Or.inl (h2 ▸ h1)
  · exact Or.inl (h1 ▸ h2)
  · exact Or.inr ⟨h1.trans h2, Nat.le_trans h1s h2s⟩

/-! ## The first-below-last invariant (tracker.py `_record_activity`) -/

theorem recordActivity_inv (e : DateTime) (rest : List DateTime)
    (s : TrackerState) (hs : InvState s (e :: rest))
    (hhead : ∀ x ∈ rest, DateTime.le e x) :
    InvState (recordActivity e s) rest := by
  by_cases hd : s.currentDate ≠ e.date
  · simp only [recordActivity, if_pos hd]
    exact ⟨DateTime.le_refl e, hhead⟩
  · simp only [recordActivity, if_neg hd]
    cases hf : s.firstActivity with
    | none =>
        cases hl : s.lastActivity with
        | none => exact ⟨DateTime.le_refl e, hhead⟩
        | some l =>
            exact absurd hs (by simp [InvState, hf, hl])
    | some f =>
        cases hl : s.lastActivity with
        | none =>
            exact absurd hs (by simp [InvState, hf, hl])
        | some l =>
            have hs' : DateTime.le f l ∧ ∀ x ∈ e :: rest, DateTime.le l x := by
              simpa [InvState, hf, hl] using hs
            refine ⟨DateTime.le_trans hs'.1 (hs'.2 e (List.mem_cons_self e rest)), hhead⟩

theorem processEvents_inv : ∀ (events : List DateTime) (s : TrackerState),
    InvState s events → List.Pairwise DateTime.le events →
    InvState (processEvents events s) [] := by
  intro events
  induction events with
  | nil => intro s h _; exact h
  | cons e rest ih =>
      intro s h hp
      rcases List.pairwise_cons.mp hp with ⟨hhead, hrest⟩
      exact ih (recordActivity e s) (recordActivity_inv e rest s h hhead) hrest

/-- Claim C3. Processing any finite sequence of input events in
nondecreasing timestamp order from the process-start state keeps the
invariant that whenever both the first and last timestamps of the
in-progress day are set, first is no later than last. -/
theorem claim_C3 (d0 : String) (events : List DateTime)
    (hsorted : List.Pairwise DateTime.le events) :
    ∀ f l, (processEvents events (initialState d0)).firstActivity = some f →
      (processEvents events (initialState d0)).lastActivity = some l →
      DateTime.le f l := by
  intro f l hf hl
  have hinv : InvState (processEvents events (initialState d0)) [] :=
    processEvents_inv events (initialState d0) (by simp [InvState, initialState]) hsorted
  simpa [InvState, hf, hl] using hinv

/-- Witness for claim C3: two same-day events at 09:22:11 and 09:22:45. -/
theorem claim_C3_witness :
    DateTime.le { date := "2024-06-01", sec := 33731 } { date := "2024-06-01", sec := 33765 } :=
  claim_C3 "2024-06-01"
    [{ date := "2024-06-01", sec := 33731 }, { date := "2024-06-01", sec := 33765 }]
    (by decide) _ _ (by decide) (by decide)

/-- Claim C6. A missing table file reads as an empty table and is never
an error: `_read_csv` returns the empty list for a missing file, and
each consumer — the tracker flush, the orders upsert, and the
combined-view rebuild on either source table — behaves on a missing
file exactly as it behaves on an existing empty table. -/
theorem claim_C6 :
    (readCsv (none : Option (List OrdRow)) = [])
    ∧ (∀ (s : TrackerState) (b : Bool), s.currentDate ≠ "" →
        flushToday s { dirExists := b, activity := none } =
          flushToday s { dirExists := b, activity := some [] })
    ∧ (∀ (today : String) (f : OrdField) (v : Nat) (b : Bool)
        (act : Option (List ActRow)) (comb : Option (List CombRow)),
        upsertOrdersRow today f v
            { dirExists := b, orders := none, activity := act, combined := comb } =
          upsertOrdersRow today f v
            { dirExists := b, orders := some [], activity := act, combined := comb })
    ∧ (∀ (b : Bool) (ord : Option (List OrdRow)) (comb : Option (List CombRow)),
        (rebuildCombinedLog
            { dirExists := b, orders := ord, activity := none, combined := comb }).combined =
          (rebuildCombinedLog
            { dirExists := b, orders := ord, activity := some [], combined := comb }).combined)
    ∧ (∀ (b : Bool) (act : Option (List ActRow)) (comb : Option (List CombRow)),
        (rebuildCombinedLog
            { dirExists := b, orders := none, activity := act, combined := comb }).combined =
          (rebuildCombinedLog
            { dirExists := b, orders := some [], activity := act, combined := comb }).combined) := by
  refine ⟨rfl, ?_, ?_, ?_, ?_⟩
  · intro s b h
    simp [flushToday, h, ensureLogFile]
  · intro today f v b act comb
    rfl
  · intro b ord comb
    rfl
  · intro b act comb
    rfl

/-- Witness for claim C6's flush conjunct at a concrete state. -/
theorem claim_C6_witness :
    flushToday (initialState "2024-06-01") { dirExists := false, activity := none } =
      flushToday (initialState "2024-06-01") { dirExists := false, activity := some [] } :=
  claim_C6.2.1 (initialState "2024-06-01") false (by decide)

/-! ## Dict-indexing lemmas (shipstation_tracker.py `rebuild_combined_log`) -/

theorem lookupIdx_insertIdx {α : Type} (m : List (String × α)) (k : String)
    (v : α) (d : String) :
    lookupIdx (insertIdx m k v) d = if k = d then some v else lookupIdx m d := by
  induction m with
  | nil => simp [insertIdx, lookupIdx]
  | cons p rest ih =>
      obtain ⟨q, w⟩ := p
      by_cases h : q = k
      · subst h
        by_cases hd : q = d <;> simp [insertIdx, lookupIdx, hd]
      · by_cases hd : q = d
        · subst hd
          have : ¬ k = q := fun hk => h hk.symm
          simp [insertIdx, lookupIdx, h, this]
        · simp [insertIdx, lookupIdx, h, hd, ih]

theorem lookupIdx_foldl_insert {α : Type} (dateOf : α → String)
    (rows : List α) (d : String) :
    ∀ m, lookupIdx (rows.foldl (fun m r => insertIdx m (dateOf r) r) m) d =
      (match lastWithDate dateOf rows d with
       | some x => some x
       | none => lookupIdx m d) := by
  induction rows with
  | nil => intro m; rfl
  | cons r rest ih =>
      intro m
      show lookupIdx (rest.foldl _ (insertIdx m (dateOf r) r)) d = _
      rw [ih]
      cases hl : lastWithDate dateOf rest d with
      | some x => simp [lastWithDate, hl]
      | none =>
          rw [lookupIdx_insertIdx]
          by_cases h : dateOf r = d <;> simp [lastWithDate, hl, h]

theorem lookupIdx_indexBy {α : Type} (dateOf : α → String) (rows : List α)
    (d : String) :
    lookupIdx (indexBy dateOf rows) d = lastWithDate dateOf rows d := by
  rw [indexBy, lookupIdx_foldl_insert]
  cases lastWithDate dateOf rows d <;> simp [lookupIdx]

theorem lastWithDate_eq_none {α : Type} (dateOf : α → String) (rows : List α)
    (d : String) (h : ∀ r ∈ rows, dateOf r ≠ d) :
    lastWithDate dateOf rows d = none := by
  induction rows with
  | nil => rfl
  | cons r rest ih =>
      have hrest := ih (fun x hx => h x (List.mem_cons_of_mem r hx))
      simp [lastWithDate, hrest, h r (List.mem_cons_self r rest)]

theorem countP_le_one_of_map_nodup {α β : Type} [DecidableEq β] (f : α → β)
    (l : List α) (h : (l.map f).Nodup) (d : β) :
    l.countP (fun r => decide (f r = d)) ≤ 1 := by
  induction l with
  | nil => simp
  | cons x xs ih =>
      rw [List.map_cons, List.nodup_cons] at h
      rw [List.countP_cons]
      by_cases hx : f x = d
      · have hzero : xs.countP (fun r => decide (f r = d)) = 0 :=
          List.countP_eq_zero.mpr (fun r hr hpr => by
            have hfr : f r = d := by simpa using hpr
            refine h.1 ?_
            rw [hx, ← hfr]
            exact List.mem_map_of_mem f hr)
        simp [hx, hzero]
      · simpa [hx] using ih h.2

theorem rebuildCombined_mem (acts : List ActRow) (ords : List OrdRow)
    (row : CombRow) (hrow : row ∈ rebuildCombined acts ords) :
    row.firstClick = (match lastWithDate ActRow.date acts row.date with
      | some a => a.first | none => "")
    ∧ row.lastClick = (match lastWithDate ActRow.date acts row.date with
      | some a => a.last | none => "")
    ∧ row.outstanding = (match lastWithDate OrdRow.date ords row.date with
      | some o => o.outstanding | none => "")
    ∧ row.shipped = (match lastWithDate OrdRow.date ords row.date with
      | some o => o.shipped | none => "") := by
  rw [rebuildCombined] at hrow
  obtain ⟨d, hd, rfl⟩ := List.mem_map.mp hrow
  refine ⟨?_, ?_, ?_, ?_⟩ <;> simp only [lookupIdx_indexBy]

theorem rebuildCombined_dates (acts : List ActRow) (ords : List OrdRow) :
    (rebuildCombined acts ords).map CombRow.date =
      List.insertionSort dateLe
        (((indexBy ActRow.date acts).map Prod.fst)
          ++ ((indexBy OrdRow.date ords).map Prod.fst)).dedup := by
  rw [rebuildCombined, List.map_map]
  exact List.map_id _

theorem rebuildCombined_dates_nodup (acts : List ActRow) (ords : List OrdRow) :
    ((rebuildCombined acts ords).map CombRow.date).Nodup := by
  rw [rebuildCombined_dates]
  exact (List.perm_insertionSort dateLe _).symm.nodup (List.nodup_dedup _)

/-- Claim C9. The combined view has at most one row per date, even when a
source table holds duplicate rows for a date; and each combined row's
fields come from the *last* row in file order bearing that date in the
respective source table (the dict comprehension lets later rows
overwrite earlier ones), with the empty string when the date is absent
from that source. -/
theorem claim_C9 :
    ∀ (acts : List ActRow) (ords : List OrdRow) (d : String),
      ((rebuildCombined acts ords).countP (fun row => decide (row.date = d)) ≤ 1)
      ∧ (∀ row ∈ rebuildCombined acts ords,
          row.firstClick = (match lastWithDate ActRow.date acts row.date with
            | some a => a.first | none => "")
          ∧ row.lastClick = (match lastWithDate ActRow.date acts row.date with
            | some a => a.last | none => "")
          ∧ row.outstanding = (match lastWithDate OrdRow.date ords row.date with
            | some o => o.outstanding | none => "")
          ∧ row.shipped = (match lastWithDate OrdRow.date ords row.date with
            | some o => o.shipped | none => "")) := by
  intro acts ords d
  exact ⟨countP_le_one_of_map_nodup CombRow.date _ (rebuildCombined_dates_nodup acts ords) d,
    fun row hrow => rebuildCombined_mem acts ords row hrow⟩

/-- Witness for claim C9: an activity table with two rows for 2024-06-03
yields a combined row taking the later row's First Activity value. -/
theorem claim_C9_witness :
    CombRow.firstClick
        { date := "2024-06-03", firstClick := "10:00:00", lastClick := "11:00:00",
          outstanding := "", shipped := "" } =
      (match lastWithDate ActRow.date
          [{ date := "2024-06-03", first := "08:00:00", last := "09:00:00" },
           { date := "2024-06-03", first := "10:00:00", last := "11:00:00" }]
          (CombRow.date
            { date := "2024-06-03", firstClick := "10:00:00",
              lastClick := "11:00:00", outstanding := "", shipped := "" }) with
        | some a => a.first | none => "") :=
  ((claim_C9
      [{ date := "2024-06-03", first := "08:00:00", last := "09:00:00" },
       { date := "2024-06-03", first := "10:00:00", last := "11:00:00" }]
      [] "2024-06-03").2
    { date := "2024-06-03", firstClick := "10:00:00", lastClick := "11:00:00",
      outstanding := "", shipped := "" } (by decide)).1

theorem lastWithDate_isSome_of_mem {α : Type} (dateOf : α → String)
    (rows : List α) (d : String) (r : α) (hr : r ∈ rows) (hd : dateOf r = d) :
    (lastWithDate dateOf rows d).isSome = true := by
  induction rows with
  | nil => cases hr
  | cons x xs ih =>
      rcases List.mem_cons.mp hr with rfl | hmem
      · cases hl : lastWithDate dateOf xs d with
        | some y => simp [lastWithDate, hl]
        | none => simp [lastWithDate, hl, hd]
      · have := ih hmem
        cases hl : lastWithDate dateOf xs d with
        | some y => simp [lastWithDate, hl]
        | none => rw [hl] at this; cases this

theorem mem_keys_of_lookupIdx_isSome {α : Type} (m : List (String × α))
    (d : String) (h : (lookupIdx m d).isSome = true) : d ∈ m.map Prod.fst := by
  induction m with
  | nil => cases h
  | cons p rest ih =>
      obtain ⟨k, v⟩ := p
      by_cases hk : k = d
      · simp [hk]
      · rw [lookupIdx, if_neg hk] at h
        simp [ih h]

theorem rebuildCombined_mem_date (acts : List ActRow) (ords : List OrdRow)
    (d : String)
    (h : (∃ r ∈ acts, ActRow.date r = d) ∨ (∃ r ∈ ords, OrdRow.date r = d)) :
    ∃ row ∈ rebuildCombined acts ords, row.date = d := by
  have hkeys : d ∈ ((indexBy ActRow.date acts).map Prod.fst)
      ++ ((indexBy OrdRow.date ords).map Prod.fst) := by
    rcases h with ⟨r, hr, hd⟩ | ⟨r, hr, hd⟩
    · refine List.mem_append_left _ (mem_keys_of_lookupIdx_isSome _ _ ?_)
      rw [lookupIdx_indexBy]
      exact lastWithDate_isSome_of_mem ActRow.date acts d r hr hd
    · refine List.mem_append_right _ (mem_keys_of_lookupIdx_isSome _ _ ?_)
      rw [lookupIdx_indexBy]
      exact lastWithDate_isSome_of_mem OrdRow.date ords d r hr hd
  have hsorted : d ∈ List.insertionSort dateLe
      (((indexBy ActRow.date acts).map Prod.fst)
        ++ ((indexBy OrdRow.date ords).map Prod.fst)).dedup :=
    (List.perm_insertionSort dateLe _).mem_iff.mpr (List.mem_dedup.mpr hkeys)
  simp only [rebuildCombined]
  exact ⟨_, List.mem_map_of_mem _ hsorted, rfl⟩

/-- Claim C5. A date present in only one source table appears in the
combined view — there is a combined row bearing that date, with the
absent side's fields rendered as empty strings — and every combined row
bearing such a date has the absent side's fields empty; concretely, an
empty activity table with the single metrics row `2024-06-03,7,` yields
exactly the one combined row `2024-06-03,,,7,`. -/
theorem claim_C5 :
    (∀ (acts : List ActRow) (ords : List OrdRow) (d : String),
      (∀ r ∈ acts, ActRow.date r ≠ d) → (∃ r ∈ ords, OrdRow.date r = d) →
      ∃ row ∈ rebuildCombined acts ords,
        row.date = d ∧ row.firstClick = "" ∧ row.lastClick = "")
    ∧ (∀ (acts : List ActRow) (ords : List OrdRow) (d : String),
      (∀ r ∈ ords, OrdRow.date r ≠ d) → (∃ r ∈ acts, ActRow.date r = d) →
      ∃ row ∈ rebuildCombined acts ords,
        row.date = d ∧ row.outstanding = "" ∧ row.shipped = "")
    ∧ (∀ (acts : List ActRow) (ords : List OrdRow) (d : String),
      (∀ r ∈ acts, ActRow.date r ≠ d) →
      ∀ row ∈ rebuildCombined acts ords, row.date = d →
        row.firstClick = "" ∧ row.lastClick = "")
    ∧ (∀ (acts : List ActRow) (ords : List OrdRow) (d : String),
      (∀ r ∈ ords, OrdRow.date r ≠ d) →
      ∀ row ∈ rebuildCombined acts ords, row.date = d →
        row.outstanding = "" ∧ row.shipped = "")
    ∧ (rebuildCombined [] [{ date := "2024-06-03", outstanding := "7", shipped := "" }] =
        [{ date := "2024-06-03", firstClick := "", lastClick := "",
           outstanding := "7", shipped := "" }])
    ∧ (serializeCombRow
        { date := "2024-06-03", firstClick := "", lastClick := "",
          outstanding := "7", shipped := "" } = "2024-06-03,,,7,\r\n") := by
  have hact : ∀ (acts : List ActRow) (ords : List OrdRow) (d : String),
      (∀ r ∈ acts, ActRow.date r ≠ d) →
      ∀ row ∈ rebuildCombined acts ords, row.date = d →
        row.firstClick = "" ∧ row.lastClick = "" := by
    intro acts ords d hnone row hrow hdate
    have hfields := rebuildCombined_mem acts ords row hrow
    rw [hdate] at hfields
    rw [lastWithDate_eq_none ActRow.date acts d hnone] at hfields
    exact ⟨hfields.1, hfields.2.1⟩
  have hord : ∀ (acts : List ActRow) (ords : List OrdRow) (d : String),
      (∀ r ∈ ords, OrdRow.date r ≠ d) →
      ∀ row ∈ rebuildCombined acts ords, row.date = d →
        row.outstanding = "" ∧ row.shipped = "" := by
    intro acts ords d hnone row hrow hdate
    have hfields := rebuildCombined_mem acts ords row hrow
    rw [hdate] at hfields
    rw [lastWithDate_eq_none OrdRow.date ords d hnone] at hfields
    exact ⟨hfields.2.2.1, hfields.2.2.2⟩
  refine ⟨?_, ?_, hact, hord, by decide, by decide⟩
  · intro acts ords d hnone hmem
    obtain ⟨row, hrow, hdate⟩ :=
      rebuildCombined_mem_date acts ords d (Or.inr hmem)
    exact ⟨row, hrow, hdate, hact acts ords d hnone row hrow hdate⟩
  · intro acts ords d hnone hmem
    obtain ⟨row, hrow, hdate⟩ :=
      rebuildCombined_mem_date acts ords d (Or.inl hmem)
    exact ⟨row, hrow, hdate, hord acts ords d hnone row hrow hdate⟩

/-- Witness for claim C5 at the spec's concrete example: the date
2024-06-03, present only in the metrics table, appears in the combined
view with empty activity fields. -/
theorem claim_C5_witness :
    ∃ row ∈ rebuildCombined []
        [{ date := "2024-06-03", outstanding := "7", shipped := "" }],
      row.date = "2024-06-03" ∧ row.firstClick = "" ∧ row.lastClick = "" :=
  claim_C5.1 [] [{ date := "2024-06-03", outstanding := "7", shipped := "" }]
    "2024-06-03" (by simp) (by decide)

/-! ## Atomic-write lemmas -/

theorem runOps_committed_of_no_move (fs : DiskFile) (ops : List WriteOp)
    (h : ∀ op ∈ ops, op ≠ WriteOp.rename) :
    (runOps fs ops).committed = fs.committed := by
  induction ops generalizing fs with
  | nil => rfl
  | cons op rest ih =>
      have hstep : (applyOp fs op).committed = fs.committed := by
        cases op with
        | createTemp => rfl
        | writeChunk s => rfl
        | rename =>
            exact absurd rfl (h WriteOp.rename (List.mem_cons_self WriteOp.rename rest))
      calc (runOps fs (op :: rest)).committed
          = (runOps (applyOp fs op) rest).committed := rfl
        _ = (applyOp fs op).committed :=
            ih (applyOp fs op) (fun x hx => h x (List.mem_cons_of_mem op hx))
        _ = fs.committed := hstep

theorem writeScript_take_no_move (chunks : List String) (k : Nat)
    (h : k < (writeScript chunks).length) :
    ∀ op ∈ (writeScript chunks).take k, op ≠ WriteOp.rename := by
  intro op hop
  cases k with
  | zero => simp at hop
  | succ j =>
      have hlen : (writeScript chunks).length = chunks.length + 2 := by
        simp [writeScript]
      have hj : j ≤ (chunks.map WriteOp.writeChunk).length := by
        rw [List.length_map]
        omega
      rw [writeScript, List.take_succ_cons, List.take_append_of_le_length hj] at hop
      rcases List.mem_cons.mp hop with rfl | hmem
      · intro hne
        cases hne
      · obtain ⟨s, _, rfl⟩ := List.mem_map.mp (List.mem_of_mem_take hmem)
        intro hne
        cases hne

theorem runOps_writeChunks (c : Option String) (t : String) (chunks : List String) :
    runOps { committed := c, temp := some t } (chunks.map WriteOp.writeChunk) =
      { committed := c, temp := some (chunks.foldl (fun acc s => acc ++ s) t) } := by
  induction chunks generalizing t with
  | nil => rfl
  | cons s rest ih =>
      show runOps { committed := c, temp := some (t ++ s) } (rest.map WriteOp.writeChunk) = _
      rw [ih]
      rfl

theorem runOps_writeScript (fs : DiskFile) (chunks : List String) :
    runOps fs (writeScript chunks) =
      { committed := some (concatChunks chunks), temp := none } := by
  show List.foldl applyOp { committed := fs.committed, temp := some "" }
      (chunks.map WriteOp.writeChunk ++ [WriteOp.rename]) = _
  rw [List.foldl_append]
  have h2 : List.foldl applyOp { committed := fs.committed, temp := some "" }
      (chunks.map WriteOp.writeChunk) =
      { committed := fs.committed,
        temp := some (chunks.foldl (fun acc s => acc ++ s) "") } :=
    runOps_writeChunks fs.committed "" chunks
  rw [h2]
  rfl

/-- Claim C7. Every table write runs the temp-then-rename script: if the
write stops at any point before the final rename (any proper prefix of
the script, including mid-temp-file creation), the committed file is
byte-for-byte what it was before the write; at every interruption point
a reader of the committed path sees either the old content or the
complete new serialization, never a partial write; and the full script
commits exactly the serialized table. -/
theorem claim_C7 (chunks : List String) (fs : DiskFile) (k : Nat) :
    (k < (writeScript chunks).length →
      (runOps fs ((writeScript chunks).take k)).committed = fs.committed)
    ∧ ((runOps fs ((writeScript chunks).take k)).committed = fs.committed
        ∨ (runOps fs ((writeScript chunks).take k)).committed =
            some (concatChunks chunks))
    ∧ runOps fs (writeScript chunks) =
        { committed := some (concatChunks chunks), temp := none } := by
  refine ⟨?_, ?_, runOps_writeScript fs chunks⟩
  · intro hk
    exact runOps_committed_of_no_move fs _ (writeScript_take_no_move chunks k hk)
  · by_cases hk : k < (writeScript chunks).length
    · exact Or.inl
        (runOps_committed_of_no_move fs _ (writeScript_take_no_move chunks k hk))
    · rw [List.take_of_length_le (Nat.le_of_not_lt hk), runOps_writeScript]
      exact Or.inr rfl

/-- Witness for claim C7: interrupting a two-line write after the header
chunk leaves the old committed bytes in place. -/
theorem claim_C7_witness :
    (runOps { committed := some "old", temp := none }
        ((writeScript ["Date,Outstanding Orders,Shipped Today\r\n",
          "2024-06-03,7,\r\n"]).take 2)).committed = some "old" :=
  (claim_C7 ["Date,Outstanding Orders,Shipped Today\r\n", "2024-06-03,7,\r\n"]
    { committed := some "old", temp := none } 2).1 (by decide)
